import Mathlib

/-
Verification of the Arbor school-calendar generator
(src/generate_school_calendar.py).

The program scrapes lesson-detail HTML fragments from a school portal,
parses them into lesson records, builds an iCalendar document and uploads
it to S3.  This file gives a shallow embedding of the pure core of that
pipeline and proves the specification claims about it.

Modelling conventions:
- Python strings are `List Char` (`Str`).
- `str.split(sep)` for a non-empty separator is `pySplit`, defined by
  repeatedly cutting at the leftmost occurrence of the separator, which is
  exactly CPython's semantics.  It is written with explicit fuel so that it
  is structurally recursive and kernel-reducible.
- Exceptions are `Except` values; `IndexError` and `ValueError` are the two
  kinds the parsing code can raise.
- BeautifulSoup selector lookups are modelled structurally: a lesson detail
  fragment is represented by the text of its `.header > .title` element and
  the list of texts of the `span` inside each `.content > ul > li` item,
  which is all the scraping code reads from it.
- Library behaviour the source relies on is modelled from the libraries'
  sources: dateutil's `tzstr("Europe/London")` parses the whole name as a
  bare zone abbreviation with no offset, so `tzrange.__init__` defaults the
  offset to +00:00 and the resulting tzinfo is a fixed zero-offset zone;
  `datetime.astimezone` on a naive value interprets it in the system-local
  timezone.  icalendar's `Component.add` encodes a `location` value through
  `vText`, and `vText(None)` is `str(None)`, i.e. the text `None`.
-/

abbrev Str := List Char

/-- ASCII whitespace as recognised by Python's `str.split()` / `str.strip()`. -/
def pyIsSpace (c : Char) : Bool :=
  c == ' ' || c == '\t' || c == '\n' || c == '\r' || c == '\x0b' || c == '\x0c'

/-- Leftmost occurrence of `sep` in a string: returns the part strictly before
the occurrence and the part strictly after it, or `none` if `sep` does not
occur.  (For the empty separator it reports an occurrence at the front; the
program never splits on an empty separator.) -/
def findOcc (sep : Str) : Str → Option (Str × Str)
  | [] => if sep.isEmpty then some ([], []) else none
  | c :: rest =>
    if sep.isPrefixOf (c :: rest) then
      some ([], (c :: rest).drop sep.length)
    else
      match findOcc sep rest with
      | some (pre, post) => some (c :: pre, post)
      | none => none

/-- Fuelled worker for `pySplit`; the fuel only serves structural recursion
and is irrelevant once it is at least the length of the string. -/
def pySplitF (sep : Str) : Nat → Str → List Str
  | 0, s => [s]
  | fuel + 1, s =>
    match findOcc sep s with
    | none => [s]
    | some (pre, post) => pre :: pySplitF sep fuel post

/-- Python `s.split(sep)` for a non-empty separator `sep`: cut at the
leftmost occurrence of `sep`, then continue after it. -/
def pySplit (sep s : Str) : List Str :=
  pySplitF sep s.length s

/-- Python `s.strip()`: remove leading and trailing whitespace. -/
def pyStrip (s : Str) : Str :=
  ((s.dropWhile pyIsSpace).reverse.dropWhile pyIsSpace).reverse

/-- Worker for `pyWsSplit`, accumulating the current word reversed. -/
def pyWsSplitAux : Str → Str → List Str
  | [], acc => if acc.isEmpty then [] else [acc.reverse]
  | c :: rest, acc =>
    if pyIsSpace c then
      if acc.isEmpty then pyWsSplitAux rest [] else acc.reverse :: pyWsSplitAux rest []
    else
      pyWsSplitAux rest (c :: acc)

/-- Python `s.split()` with no argument: split on runs of whitespace and
drop empty pieces. -/
def pyWsSplit (s : Str) : List Str :=
  pyWsSplitAux s []

/-- Python `' '.join(parts)`. -/
def pyJoinSpace (parts : List Str) : Str :=
  List.intercalate [' '] parts

/-- Python `s.replace('\n', '')`: delete every newline character. -/
def pyReplaceNL (s : Str) : Str :=
  s.filter (· != '\n')

/-- Lines 112-113 of the source: `source_date.replace('\n', '')` followed by
`' '.join(source_date.split())` — whitespace normalisation of the first
detail item. -/
def pyNormalize (s : Str) : Str :=
  pyJoinSpace (pyWsSplit (pyReplaceNL s))

/-- A naive `datetime.datetime` as produced by `strptime` (seconds are always
zero for the format used). -/
structure PyDateTime where
  year : Nat
  month : Nat
  day : Nat
  hour : Nat
  minute : Nat

/-- Value of a digit string (the strings fed to it are short runs of ASCII
digits). -/
def digitsVal (l : Str) : Nat :=
  l.foldl (fun acc c => 10 * acc + (c.toNat - 48)) 0

/-- Month number of a lowercase abbreviated month name, as matched by
`strptime`'s `b` directive (case-insensitive, C locale). -/
def monthOfAbbr (s : Str) : Option Nat :=
  let t := s.map Char.toLower
  if t = ("jan").data then some 1
  else if t = ("feb").data then some 2
  else if t = ("mar").data then some 3
  else if t = ("apr").data then some 4
  else if t = ("may").data then some 5
  else if t = ("jun").data then some 6
  else if t = ("jul").data then some 7
  else if t = ("aug").data then some 8
  else if t = ("sep").data then some 9
  else if t = ("oct").data then some 10
  else if t = ("nov").data then some 11
  else if t = ("dec").data then some 12
  else none

/-- Gregorian leap-year rule, as used by `datetime`. -/
def isLeapYear (y : Nat) : Bool :=
  y % 4 == 0 && (y % 100 != 0 || y % 400 == 0)

/-- Length of a month, as validated by the `datetime` constructor. -/
def daysInMonth (y m : Nat) : Nat :=
  if m = 2 then (if isLeapYear y then 29 else 28)
  else if m = 4 then 30
  else if m = 6 then 30
  else if m = 9 then 30
  else if m = 11 then 30
  else 31

/-- Model of `datetime.datetime.strptime(s, '%d %b %Y %H:%M')` (lines
116-119 of the source), returning `none` where Python raises `ValueError`.
CPython compiles the format to a regular expression matched against the
whole string: a 1-2 digit day in 1..31, whitespace, an abbreviated month
name, whitespace, a 4-digit year, whitespace, a 1-2 digit hour below 24, a
literal colon, and a 1-2 digit minute below 60; the constructor then checks
the day against the month length and rejects year 0. -/
def strptimeDMYHM (s : Str) : Option PyDateTime :=
  let dayDs := s.takeWhile Char.isDigit
  let r1 := s.dropWhile Char.isDigit
  if dayDs.length = 0 then none else
  if 2 < dayDs.length then none else
  if digitsVal dayDs < 1 then none else
  if 31 < digitsVal dayDs then none else
  if (r1.takeWhile pyIsSpace).isEmpty then none else
  let r2 := r1.dropWhile pyIsSpace
  match monthOfAbbr (r2.takeWhile Char.isAlpha) with
  | none => none
  | some month =>
    let r3 := r2.dropWhile Char.isAlpha
    if (r3.takeWhile pyIsSpace).isEmpty then none else
    let r4 := r3.dropWhile pyIsSpace
    let yDs := r4.takeWhile Char.isDigit
    let r5 := r4.dropWhile Char.isDigit
    if yDs.length ≠ 4 then none else
    if digitsVal yDs < 1 then none else
    if (r5.takeWhile pyIsSpace).isEmpty then none else
    let r6 := r5.dropWhile pyIsSpace
    let hDs := r6.takeWhile Char.isDigit
    let r7 := r6.dropWhile Char.isDigit
    if hDs.length = 0 then none else
    if 2 < hDs.length then none else
    if 23 < digitsVal hDs then none else
    match r7 with
    | ':' :: r8 =>
      let mDs := r8.takeWhile Char.isDigit
      let r9 := r8.dropWhile Char.isDigit
      if mDs.length = 0 then none else
      if 2 < mDs.length then none else
      if 59 < digitsVal mDs then none else
      if ¬ r9.isEmpty then none else
      if daysInMonth (digitsVal yDs) month < digitsVal dayDs then none else
      some ⟨digitsVal yDs, month, digitsVal dayDs, digitsVal hDs, digitsVal mDs⟩
    | _ => none

/-- The two error kinds the parsing code can raise: `IndexError` from list
indexing and `ValueError` from unpacking or `strptime`. -/
inductive PyErr
  | indexError
  | valueError

/-- Python `l[i]` on a list: the element, or an `IndexError`. -/
def getItem (l : List Str) (i : Nat) : Except PyErr Str :=
  match l.get? i with
  | some x => Except.ok x
  | none => Except.error PyErr.indexError

/-- Python unpacking `a, b = l`: succeeds exactly when `l` has two
elements, otherwise raises `ValueError`. -/
def unpack2 (l : List Str) : Except PyErr (Str × Str) :=
  match l with
  | [a, b] => Except.ok (a, b)
  | _ => Except.error PyErr.valueError

/-- A lesson-detail HTML fragment, as read by the scraper: the text of the
`.header > .title` element and the `span` text of each `.content > ul > li`
detail item. -/
structure LessonFragment where
  title : Str
  items : List Str

/-- The dictionary returned by `extract_lesson_details`. -/
structure LessonRecord where
  subject : Str
  class_location : Option Str
  staff : Str
  from_date : PyDateTime
  to_date : PyDateTime

/-- Separator of line 103: `': Year'`. -/
def sepYearStr : Str := (": Year").data

/-- Separator of line 114: `', '`. -/
def commaSpaceSep : Str := (", ").data

/-- Separator of line 115: `' - '`. -/
def dashSep : Str := (" - ").data

/-- Separator of line 110: `':'`. -/
def colonSep : Str := [':']

/-- Lines 105-111 of the source: location and staff from the detail items.
With fewer than 3 items the location is `None` and the staff text is
`lesson_details[1]`; with 3 or more the location is
`lesson_details[1].text.split(':')[1].strip()` and the staff text is
`lesson_details[2]`. -/
def locStaffOf (items : List Str) : Except PyErr (Option Str × Str) :=
  if items.length < 3 then
    match getItem items 1 with
    | Except.error e => Except.error e
    | Except.ok staff => Except.ok (none, staff)
  else
    match getItem items 1 with
    | Except.error e => Except.error e
    | Except.ok it1 =>
      match (pySplit colonSep it1).get? 1 with
      | none => Except.error PyErr.indexError
      | some seg =>
        match getItem items 2 with
        | Except.error e => Except.error e
        | Except.ok st => Except.ok (some (pyStrip seg), st)

/-- Lines 112-119 of the source: normalise the first detail item, discard
the weekday before the first `', '`, unpack date and time-range segments,
split the time range on `' - '`, and `strptime` both combined strings. -/
def parseDates (item0 : Str) : Except PyErr (PyDateTime × PyDateTime) :=
  match unpack2 ((pySplit commaSpaceSep (pyNormalize item0)).drop 1) with
  | Except.error e => Except.error e
  | Except.ok (dateStr, timeStr) =>
    match unpack2 (pySplit dashSep timeStr) with
    | Except.error e => Except.error e
    | Except.ok (fromTime, toTime) =>
      match strptimeDMYHM (dateStr ++ ' ' :: fromTime) with
      | none => Except.error PyErr.valueError
      | some fd =>
        match strptimeDMYHM (dateStr ++ ' ' :: toTime) with
        | none => Except.error PyErr.valueError
        | some td => Except.ok (fd, td)

/-- Lines 100-125 of the source, `extract_lesson_details`.  The subject is
`title.split(': Year')[0]` (computed on line 103; it cannot fail, so its
placement relative to the failing steps is immaterial). -/
def extract_lesson_details (f : LessonFragment) : Except PyErr LessonRecord :=
  match locStaffOf f.items with
  | Except.error e => Except.error e
  | Except.ok (cl, st) =>
    match getItem f.items 0 with
    | Except.error e => Except.error e
    | Except.ok item0 =>
      match parseDates item0 with
      | Except.error e => Except.error e
      | Except.ok (fd, td) =>
        Except.ok ⟨(pySplit sepYearStr f.title).headI, cl, st, fd, td⟩

/-- Constant of line 29 of the source. -/
def CALENDAR_PROD_ID : Str := ("-//Tiffin School//Tiffin School Calendar//EN").data

/-- Leap days up to and including year `y`. -/
def leapsThrough (y : Nat) : Nat := y / 4 - y / 100 + y / 400

/-- Days in year `y` before the first of month `m`. -/
def daysBeforeMonth (y m : Nat) : Nat :=
  (List.range (m - 1)).foldl (fun acc i => acc + daysInMonth y (i + 1)) 0

/-- Minutes of a naive datetime on the proleptic Gregorian time line
(day 0 is 0001-01-01). -/
def naiveToMinutes (t : PyDateTime) : Nat :=
  1440 * (365 * (t.year - 1) + leapsThrough (t.year - 1)
          + daysBeforeMonth t.year t.month + (t.day - 1))
    + 60 * t.hour + t.minute

/-- Model of `d.astimezone(dateutil.tz.tzstr(TIMEZONE))` on lines 135-136 of
the source.  `tzstr("Europe/London")` parses the whole name as a bare zone
abbreviation with no offset and dateutil defaults the offset to +00:00, so
the target is a fixed zero-offset zone with no DST; `astimezone` on a naive
datetime interprets it in the system-local timezone, whose UTC offset in
minutes at a given wall-clock time is the environment `localOff`.  The
resulting aware datetime is determined by its UTC instant, represented as
minutes. -/
def astimezoneFixed (localOff : PyDateTime → Int) (t : PyDateTime) : Int :=
  (naiveToMinutes t : Int) - localOff t

/-- Model of icalendar's encoding of a property value added with
`Component.add`: the value is passed through `vText`, and `vText(None)` is
`str(None)`, i.e. the four characters `None`. -/
def vTextOfOpt : Option Str → Str
  | some s => s
  | none => ("None").data

/-- An iCalendar `VEVENT` as built by `create_calendar_event`: the property
map restricted to the five properties the code adds (`location` is `none`
when the property is absent from the component). -/
structure VEvent where
  summary : Str
  location : Option Str
  description : Str
  dtstart : Int
  dtend : Int

/-- Lines 128-137 of the source, `create_calendar_event`.  Every property is
added unconditionally; in particular `e.add('location', None)` stores a
`LOCATION` property whose text is `None`. -/
def create_calendar_event (localOff : PyDateTime → Int) (lesson : LessonRecord) : VEvent :=
  ⟨lesson.subject,
   some (vTextOfOpt lesson.class_location),
   lesson.staff,
   astimezoneFixed localOff lesson.from_date,
   astimezoneFixed localOff lesson.to_date⟩

/-- An iCalendar document as built by `create_calendar`: the two fixed
properties plus the ordered subcomponent list. -/
structure VCalendar where
  prodid : Str
  version : Str
  events : List VEvent

/-- Lines 140-147 of the source, `create_calendar`: fixed `prodid` and
`version`, then one event appended per lesson in input order. -/
def create_calendar (localOff : PyDateTime → Int) (lessons : List LessonRecord) : VCalendar :=
  ⟨CALENDAR_PROD_ID, ("2.0").data, lessons.map (create_calendar_event localOff)⟩

/-- Marker attribute of line 85: `ajax-link="`. -/
def ajaxMarker : Str := ("ajax-link=\"").data

/-- The double-quote character ending an extracted link. -/
def quoteC : Char := Char.ofNat 34

/-- Lines 85-86 of the source: the links in one `html` field, i.e.
`link.split('"')[0]` for each piece of `html.split('ajax-link="')[1:]`. -/
def linksInHtml (html : Str) : List Str :=
  ((pySplit ajaxMarker html).drop 1).map (fun piece => (pySplit [quoteC] piece).headI)

/-- The window-fetch response as read by `get_calendar_html`: the list
`entries['items'][0]['fields']['response']['value']['pages']`, with each
page represented by its optional `html` field (`none` when `'html' in h`
fails). -/
structure CalendarResponse where
  pages : List (Option Str)

/-- Lines 79-87 of the source, `get_calendar_html`: for each page with an
`html` field, append the links found in it, in encounter order. -/
def get_calendar_html (resp : CalendarResponse) : List Str :=
  (resp.pages.map (fun p =>
    match p with
    | some h => linksInHtml h
    | none => [])).flatten

/-- The steps of `upload_ical_to_s3` (lines 150-161) that can raise:
`boto3.client` before the `try`, then inside the `try` the temporary-file
creation, the serialising write (`to_ical` plus `write`), the seek and the
S3 upload, and finally the close in the `finally` block. -/
inductive S3Step
  | clientInit
  | createTemp
  | writeCal
  | seekFile
  | uploadObj
  | closeFile
deriving DecidableEq

/-- What can escape `upload_ical_to_s3` to its caller: an exception from a
step outside the `try`/`except` protection, or the `NameError` raised in the
`finally` block when `temp_file` was never bound. -/
inductive PyExc
  | fromStep (s : S3Step)
  | nameError

/-- Static prefix of the message printed by the `except` handler on line
159 (the formatted exception text follows it). -/
def uploadFailureMsg : Str := ("Failed to upload file to S3: ").data

/-- The steps guarded by the `try` suite, in program order. -/
def s3TrySteps : List S3Step :=
  [S3Step.createTemp, S3Step.writeCal, S3Step.seekFile, S3Step.uploadObj]

/-- Lines 150-161 of the source, `upload_ical_to_s3`, as a function of which
step (if any) raises.  Returns what the call does to its caller together
with the list of messages printed.  `boto3.client` runs before the `try`,
so its failure propagates; a failure inside the `try` suite is caught by
`except Exception` and printed; the `finally` block then closes
`temp_file`, which raises `NameError` if the failing step was the
temporary-file creation itself (the name was never bound), and propagates a
failure of `close` itself. -/
def upload_ical_to_s3 (cal : VCalendar) (failAt : Option S3Step) :
    Except PyExc Unit × List Str :=
  if failAt = some S3Step.clientInit then
    (Except.error (PyExc.fromStep S3Step.clientInit), [])
  else
    let raised : Option S3Step :=
      match failAt with
      | some st => if st ∈ s3TrySteps then some st else none
      | none => none
    let log : List Str :=
      match raised with
      | some _ => [uploadFailureMsg]
      | none => []
    if raised = some S3Step.createTemp then
      (Except.error PyExc.nameError, log)
    else if failAt = some S3Step.closeFile then
      (Except.error (PyExc.fromStep S3Step.closeFile), log)
    else
      (Except.ok (), log)

/-- A tuple of all fields of a lesson record (the structural content the
calendar builder reads). -/
def recFields (r : LessonRecord) : Str × Option Str × Str × PyDateTime × PyDateTime :=
  (r.subject, r.class_location, r.staff, r.from_date, r.to_date)

/-! ### Concrete inputs used in counterexamples and witnesses -/

/-- An environment in which the system-local timezone is UTC (offset 0),
as on the scheduled runner. -/
def envZero : PyDateTime → Int := fun _ => 0

/-- A lesson record whose location is absent, as produced by
`extract_lesson_details` from a fragment with exactly two detail items. -/
def lessonNoLoc : LessonRecord :=
  ⟨("Physics").data, none, ("P. Jones").data, ⟨2024, 9, 5, 9, 0⟩, ⟨2024, 9, 5, 10, 0⟩⟩

/-- A lesson-detail fragment whose second detail item contains two colons. -/
def fragTwoColons : LessonFragment :=
  ⟨("Maths: Year 9").data,
   [("Thu, 05 Sep 2024, 09:00 - 10:00").data, ("Room: A:12").data, ("J. Smith").data]⟩

/-- The second detail item of `fragTwoColons`. -/
def itemTwoColons : Str := ("Room: A:12").data

/-- A lesson-detail fragment with exactly two detail items (spec scenario 3). -/
def fragTwoItems : LessonFragment :=
  ⟨("Games: Year 9").data,
   [("Thu, 05 Sep 2024, 09:00 - 10:00").data, ("P. Jones").data]⟩

/-- A lesson-detail fragment whose first item carries irregular embedded
whitespace (spec scenario 1), with a title not containing `: Year`. -/
def fragIrregularWs : LessonFragment :=
  ⟨("Assembly").data,
   [("Thu, 05 Sep \n 2024, 09:00  -  10:00").data, ("P. Jones").data]⟩

/-- A lesson-detail fragment with a single detail item. -/
def fragOneItem : LessonFragment :=
  ⟨("Maths: Year 9").data, [("Thu, 05 Sep 2024, 09:00 - 10:00").data]⟩

/-- The normalised date text of the spec scenarios. -/
def dateTargetStr : Str := ("Thu, 05 Sep 2024, 09:00 - 10:00").data

/-- The record `extract_lesson_details` produces for `fragTwoColons`. -/
def recTwoColons : LessonRecord :=
  ⟨("Maths").data, some (("A").data), ("J. Smith").data,
   ⟨2024, 9, 5, 9, 0⟩, ⟨2024, 9, 5, 10, 0⟩⟩

/-- The record `extract_lesson_details` produces for `fragTwoItems`. -/
def recTwoItems : LessonRecord :=
  ⟨("Games").data, none, ("P. Jones").data, ⟨2024, 9, 5, 9, 0⟩, ⟨2024, 9, 5, 10, 0⟩⟩

/-- The record `extract_lesson_details` produces for `fragIrregularWs`. -/
def recIrregularWs : LessonRecord :=
  ⟨("Assembly").data, none, ("P. Jones").data, ⟨2024, 9, 5, 9, 0⟩, ⟨2024, 9, 5, 10, 0⟩⟩

/-- The location claim C1 predicts for a detail item: the entire text of the
item after its first colon, trimmed.  Stated from the spec's words, for
comparison with the source's `split(':')[1].strip()`. -/
def specLocationAfterFirstColon (t : Str) : Str :=
  pyStrip ((t.dropWhile (· != ':')).tail)

/-- The window-fetch response of spec scenario 4: one page whose `html`
field embeds the links `/a` then `/b`. -/
def respScenario4 : CalendarResponse :=
  ⟨[some (("<p>x ajax-link=\"/a\">l</p> <p>y ajax-link=\"/b\">z</p>").data)]⟩

/-- A window-fetch response whose single page embeds the same link twice. -/
def respDupLink : CalendarResponse :=
  ⟨[some (("ajax-link=\"/a\">l ajax-link=\"/a\">l").data)]⟩

/-! ### Properties of the split model -/

theorem findOcc_nil {a : Char} {sep : Str} : findOcc (a :: sep) [] = none := rfl

theorem findOcc_post_length {sep : Str} (hsep : sep ≠ []) :
    ∀ {s pre post : Str}, findOcc sep s = some (pre, post) → post.length < s.length := by
  intro s
  induction s with
  | nil =>
    intro pre post h
    cases sep with
    | nil => exact absurd rfl hsep
    | cons a tl => exact Option.noConfusion (findOcc_nil ▸ h)
  | cons c rest ih =>
    intro pre post h
    by_cases hp : sep.isPrefixOf (c :: rest)
    · rw [findOcc, if_pos hp] at h
      have hlen : sep.length ≠ 0 := fun h0 => hsep (List.eq_nil_of_length_eq_zero h0)
      injection h with h'
      injection h' with h1 h2
      rw [← h2, List.length_drop]
      simp only [List.length_cons]
      omega
    · rw [findOcc, if_neg hp] at h
      cases hfo : findOcc sep rest with
      | none => rw [hfo] at h; exact Option.noConfusion h
      | some pp =>
        obtain ⟨pre', post'⟩ := pp
        rw [hfo] at h
        injection h with h'
        injection h' with h1 h2
        have := ih hfo
        rw [← h2]
        simp only [List.length_cons]
        omega

theorem pySplitF_fuel_eq {sep : Str} (hsep : sep ≠ []) :
    ∀ f1 f2 s, s.length ≤ f1 → s.length ≤ f2 →
      pySplitF sep f1 s = pySplitF sep f2 s := by
  intro f1
  induction f1 with
  | zero =>
    intro f2 s h1 h2
    have hs : s = [] := List.eq_nil_of_length_eq_zero (Nat.le_zero.mp h1)
    subst hs
    obtain ⟨a, tl, rfl⟩ : ∃ a tl, sep = a :: tl := by
      cases sep with
      | nil => exact absurd rfl hsep
      | cons a tl => exact ⟨a, tl, rfl⟩
    cases f2 with
    | zero => rfl
    | succ m => simp only [pySplitF, findOcc_nil]
  | succ n ih =>
    intro f2 s h1 h2
    cases f2 with
    | zero =>
      have hs : s = [] := List.eq_nil_of_length_eq_zero (Nat.le_zero.mp h2)
      subst hs
      obtain ⟨a, tl, rfl⟩ : ∃ a tl, sep = a :: tl := by
        cases sep with
        | nil => exact absurd rfl hsep
        | cons a tl => exact ⟨a, tl, rfl⟩
      simp only [pySplitF, findOcc_nil]
    | succ m =>
      cases hfo : findOcc sep s with
      | none => simp only [pySplitF, hfo]
      | some pp =>
        obtain ⟨pre, post⟩ := pp
        have hlt := findOcc_post_length hsep hfo
        have hpn : post.length ≤ n := by omega
        have hpm : post.length ≤ m := by omega
        simp only [pySplitF, hfo]
        rw [ih m post hpn hpm]

theorem pySplit_cons {sep s pre post : Str} (hsep : sep ≠ [])
    (h : findOcc sep s = some (pre, post)) :
    pySplit sep s = pre :: pySplit sep post := by
  have hlt := findOcc_post_length hsep h
  obtain ⟨n, hn⟩ : ∃ n, s.length = n + 1 := by
    cases hs : s.length with
    | zero => omega
    | succ k => exact ⟨k, rfl⟩
  unfold pySplit
  rw [hn]
  simp only [pySplitF, h]
  have : post.length ≤ n := by omega
  rw [pySplitF_fuel_eq hsep n post.length post this (Nat.le_refl _)]

theorem pySplit_eq_single {sep s : Str} (h : findOcc sep s = none) :
    pySplit sep s = [s] := by
  unfold pySplit
  cases hs : s.length with
  | zero => rfl
  | succ k => simp only [pySplitF, h]

theorem isInfix_of_findOcc {sep : Str} :
    ∀ {s pre post : Str}, findOcc sep s = some (pre, post) → sep <:+: s := by
  intro s
  induction s with
  | nil =>
    intro pre post h
    cases sep with
    | nil => exact List.nil_infix
    | cons a tl => exact Option.noConfusion (findOcc_nil ▸ h)
  | cons c rest ih =>
    intro pre post h
    by_cases hp : sep.isPrefixOf (c :: rest)
    · exact (List.isPrefixOf_iff_prefix.mp hp).isInfix
    · rw [findOcc, if_neg hp] at h
      cases hfo : findOcc sep rest with
      | none => rw [hfo] at h; exact Option.noConfusion h
      | some pp =>
        obtain ⟨pre', post'⟩ := pp
        exact List.infix_cons (ih hfo)

theorem findOcc_eq_none {sep s : Str} (h : ¬ sep <:+: s) : findOcc sep s = none := by
  cases hfo : findOcc sep s with
  | none => rfl
  | some pp =>
    obtain ⟨pre, post⟩ := pp
    exact absurd (isInfix_of_findOcc hfo) h

theorem pySplit_of_not_infixOcc {sep s : Str} (h : ¬ sep <:+: s) :
    pySplit sep s = [s] :=
  pySplit_eq_single (findOcc_eq_none h)

theorem findOcc_single (c : Char) :
    ∀ s : Str, findOcc [c] s =
      if c ∈ s then some (s.takeWhile (· != c), (s.dropWhile (· != c)).tail) else none := by
  intro s
  induction s with
  | nil => simp [findOcc]
  | cons x rest ih =>
    by_cases hx : x = c
    · subst hx
      have hp : ([x] : Str).isPrefixOf (x :: rest) = true := by
        simp [List.isPrefixOf]
      simp only [findOcc, hp, if_true, List.mem_cons, true_or, if_pos,
        List.takeWhile_cons, List.dropWhile_cons, bne_self_eq_false, List.drop_succ_cons,
        List.drop_zero, cond_false, Bool.false_eq_true, if_false, List.tail_cons]
      rfl
    · have hp : ([c] : Str).isPrefixOf (x :: rest) = false := by
        simp only [List.isPrefixOf, List.isPrefixOf_nil_left, Bool.and_true,
          beq_eq_false_iff_ne, ne_eq]
        exact fun h => hx h.symm
      have hxb : (x != c) = true := by
        simp only [bne_iff_ne, ne_eq]
        exact hx
      have hcx : ¬ c = x := fun h => hx h.symm
      simp only [findOcc, hp, Bool.false_eq_true, if_false, ih]
      by_cases hm : c ∈ rest
      · simp [hm, hxb, hcx, List.takeWhile_cons, List.dropWhile_cons]
      · simp [hm, hcx]

theorem takeWhile_dropWhile_append_cons {c : Char} :
    ∀ a b : Str, c ∉ a →
      (a ++ c :: b).takeWhile (· != c) = a ∧ (a ++ c :: b).dropWhile (· != c) = c :: b := by
  intro a
  induction a with
  | nil =>
    intro b _
    refine ⟨?_, ?_⟩ <;>
      simp [List.takeWhile_cons, List.dropWhile_cons]
  | cons x a' ih =>
    intro b ha
    have hx : x ≠ c := fun h => ha (by simp [h])
    have h' : c ∉ a' := fun h => ha (List.mem_cons_of_mem _ h)
    obtain ⟨h1, h2⟩ := ih b h'
    have hxb : (x != c) = true := by
      simp only [bne_iff_ne, ne_eq]
      exact hx
    refine ⟨?_, ?_⟩
    · simp [List.takeWhile_cons, hxb, h1]
    · simp [List.dropWhile_cons, hxb, h2]

theorem findOcc_single_append {c : Char} {a : Str} (b : Str) (ha : c ∉ a) :
    findOcc [c] (a ++ c :: b) = some (a, b) := by
  rw [findOcc_single]
  have hm : c ∈ a ++ c :: b := by simp
  rw [if_pos hm]
  obtain ⟨h1, h2⟩ := takeWhile_dropWhile_append_cons a b ha
  rw [h1, h2]
  rfl

theorem pySplit_single_get0 (c : Char) (b : Str) :
    (pySplit [c] b).get? 0 = some (b.takeWhile (· != c)) := by
  by_cases hm : c ∈ b
  · have hfo : findOcc [c] b = some (b.takeWhile (· != c), (b.dropWhile (· != c)).tail) := by
      rw [findOcc_single, if_pos hm]
    rw [pySplit_cons (by simp) hfo]
    rfl
  · have hfo : findOcc [c] b = none := by
      rw [findOcc_single, if_neg hm]
    rw [pySplit_eq_single hfo]
    have hself : b.takeWhile (· != c) = b := by
      rw [List.takeWhile_eq_self_iff]
      intro x hxb
      simp only [bne_iff_ne, ne_eq]
      exact fun h => hm (h ▸ hxb)
    rw [hself]
    rfl

/-! ### Inversion lemmas for the lesson parser -/

theorem getItem_ok {l : List Str} {i : Nat} {x : Str} :
    getItem l i = Except.ok x ↔ l.get? i = some x := by
  unfold getItem
  cases h : l.get? i <;> simp

theorem getItem_none {l : List Str} {i : Nat} (h : l.get? i = none) :
    getItem l i = Except.error PyErr.indexError := by
  unfold getItem
  rw [h]

theorem locStaffOf_short {items : List Str} (h : items.length < 2) :
    locStaffOf items = Except.error PyErr.indexError := by
  have h3 : items.length < 3 := by omega
  have hg : items.get? 1 = none := by
    rw [List.get?_eq_none]
    omega
  unfold locStaffOf
  rw [if_pos h3, getItem_none hg]

theorem locStaffOf_two {items : List Str} {p : Option Str × Str}
    (h2 : items.length < 3) (h : locStaffOf items = Except.ok p) :
    ∃ st, items.get? 1 = some st ∧ p = (none, st) := by
  unfold locStaffOf at h
  rw [if_pos h2] at h
  cases hg : getItem items 1 with
  | error e => rw [hg] at h; exact Except.noConfusion h
  | ok st =>
    rw [hg] at h
    have h' : (Except.ok (none, st) : Except PyErr (Option Str × Str)) = Except.ok p := h
    injection h' with h''
    exact ⟨st, getItem_ok.mp hg, h''.symm⟩

theorem locStaffOf_three {items : List Str} {p : Option Str × Str}
    (h3 : 3 ≤ items.length) (h : locStaffOf items = Except.ok p) :
    ∃ it1 seg st, items.get? 1 = some it1 ∧
      (pySplit colonSep it1).get? 1 = some seg ∧
      items.get? 2 = some st ∧ p = (some (pyStrip seg), st) := by
  have hn3 : ¬ items.length < 3 := by omega
  unfold locStaffOf at h
  rw [if_neg hn3] at h
  split at h
  · exact Except.noConfusion h
  · rename_i it1 hg1
    split at h
    · exact Except.noConfusion h
    · rename_i seg hseg
      split at h
      · exact Except.noConfusion h
      · rename_i st hg2
        injection h with h''
        exact ⟨it1, seg, st, getItem_ok.mp hg1, hseg, getItem_ok.mp hg2, h''.symm⟩

theorem extract_ok_inv {f : LessonFragment} {r : LessonRecord}
    (h : extract_lesson_details f = Except.ok r) :
    ∃ cl st item0 fd td,
      locStaffOf f.items = Except.ok (cl, st) ∧
      f.items.get? 0 = some item0 ∧
      parseDates item0 = Except.ok (fd, td) ∧
      r = ⟨(pySplit sepYearStr f.title).headI, cl, st, fd, td⟩ := by
  unfold extract_lesson_details at h
  split at h
  · exact Except.noConfusion h
  · rename_i cl st hls
    split at h
    · exact Except.noConfusion h
    · rename_i item0 hg0
      split at h
      · exact Except.noConfusion h
      · rename_i fd td hpd
        injection h with h''
        exact ⟨cl, st, item0, fd, td, hls, getItem_ok.mp hg0, hpd, h''.symm⟩

/-! ### Claims about the lesson parser -/

/-- C9: for a fragment with fewer than 2 detail items,
`extract_lesson_details` returns no lesson record: it fails with an
`IndexError` on `lesson_details[1]` in the fewer-than-3 branch, so that
branch only succeeds when exactly 2 items are present. -/
theorem C9_too_few_items (f : LessonFragment) (h : f.items.length < 2) :
    extract_lesson_details f = Except.error PyErr.indexError := by
  unfold extract_lesson_details
  rw [locStaffOf_short h]

theorem C9_too_few_items_witness :
    extract_lesson_details fragOneItem = Except.error PyErr.indexError :=
  C9_too_few_items fragOneItem (by decide)

/-- C3: for a fragment with exactly 2 detail items, a successful
`extract_lesson_details` returns a record with no location and with the
second item's text as staff. -/
theorem C3_two_items (f : LessonFragment) (r : LessonRecord)
    (h2 : f.items.length = 2)
    (hok : extract_lesson_details f = Except.ok r) :
    r.class_location = none ∧ f.items.get? 1 = some r.staff := by
  obtain ⟨cl, st, item0, fd, td, hls, hg0, hpd, hr⟩ := extract_ok_inv hok
  obtain ⟨st', hst', hp⟩ := locStaffOf_two (by omega) hls
  injection hp with hcl hst
  subst hr
  refine ⟨hcl, ?_⟩
  show f.items.get? 1 = some st
  rw [hst', hst]

theorem C3_two_items_witness :
    recTwoItems.class_location = none
    ∧ fragTwoItems.items.get? 1 = some recTwoItems.staff :=
  C3_two_items fragTwoItems recTwoItems (by decide) rfl

/-- C10: when the title text does not contain the substring `: Year`, a
successful `extract_lesson_details` leaves the subject equal to the whole
title text (`split(': Year')[0]` is the entire string). -/
theorem C10_subject_unchanged (f : LessonFragment) (r : LessonRecord)
    (hny : ¬ sepYearStr <:+: f.title)
    (hok : extract_lesson_details f = Except.ok r) :
    r.subject = f.title := by
  obtain ⟨cl, st, item0, fd, td, hls, hg0, hpd, hr⟩ := extract_ok_inv hok
  subst hr
  show (pySplit sepYearStr f.title).headI = f.title
  rw [pySplit_of_not_infixOcc hny]
  rfl

theorem C10_subject_unchanged_witness :
    recIrregularWs.subject = fragIrregularWs.title :=
  C10_subject_unchanged fragIrregularWs recIrregularWs (by decide) rfl

/-- C4: when the first detail item normalises to
`Thu, 05 Sep 2024, 09:00 - 10:00` (irregular embedded whitespace and line
breaks collapse under `replace` and `' '.join(split())`), a successful
`extract_lesson_details` returns `from_date` 2024-09-05 09:00 and
`to_date` 2024-09-05 10:00. -/
theorem C4_date_parsing (f : LessonFragment) (s : Str) (r : LessonRecord)
    (h0 : f.items.get? 0 = some s)
    (hnorm : pyNormalize s = dateTargetStr)
    (hok : extract_lesson_details f = Except.ok r) :
    r.from_date = ⟨2024, 9, 5, 9, 0⟩ ∧ r.to_date = ⟨2024, 9, 5, 10, 0⟩ := by
  obtain ⟨cl, st, item0, fd, td, hls, hg0, hpd, hr⟩ := extract_ok_inv hok
  rw [hg0] at h0
  injection h0 with hsi
  subst hsi
  have hconc : parseDates item0 = Except.ok (⟨2024, 9, 5, 9, 0⟩, ⟨2024, 9, 5, 10, 0⟩) := by
    unfold parseDates
    rw [hnorm]
    rfl
  rw [hconc] at hpd
  injection hpd with hpair
  injection hpair with h1 h2
  subst hr
  exact ⟨h1.symm, h2.symm⟩

theorem C4_date_parsing_witness :
    recIrregularWs.from_date = ⟨2024, 9, 5, 9, 0⟩
    ∧ recIrregularWs.to_date = ⟨2024, 9, 5, 10, 0⟩ :=
  C4_date_parsing fragIrregularWs (("Thu, 05 Sep \n 2024, 09:00  -  10:00").data)
    recIrregularWs rfl rfl rfl

/-- C1 (counterexample): on a fragment whose second detail item is
`Room: A:12`, the code returns location `A` — `split(':')[1]` is only the
segment between the first and second colon — while the text after the
item's first colon, trimmed, is `A:12`; so the claimed equality fails when
the item contains more than one colon. -/
theorem C1_counterexample :
    (extract_lesson_details fragTwoColons).map (fun r => r.class_location)
      = Except.ok (some (("A").data))
    ∧ specLocationAfterFirstColon itemTwoColons = ("A:12").data
    ∧ some (("A").data) ≠ some (("A:12").data) := by
  refine ⟨rfl, rfl, ?_⟩
  decide

/-- C1 (amended): with at least 3 detail items, a successful
`extract_lesson_details` returns as location the segment of the second
item's text strictly between its first colon and the next colon (to the
end of the item if there is no second colon), trimmed of surrounding
whitespace. -/
theorem C1_amended_location (f : LessonFragment) (r : LessonRecord) (a b : Str)
    (h3 : 3 ≤ f.items.length)
    (hitem : f.items.get? 1 = some (a ++ ':' :: b))
    (ha : ':' ∉ a)
    (hok : extract_lesson_details f = Except.ok r) :
    r.class_location = some (pyStrip (b.takeWhile (· != ':'))) := by
  obtain ⟨cl, st, item0, fd, td, hls, hg0, hpd, hr⟩ := extract_ok_inv hok
  obtain ⟨it1, seg, st2, hit1, hseg, hst2, hp⟩ := locStaffOf_three h3 hls
  rw [hitem] at hit1
  injection hit1 with hit1e
  have hfo : findOcc [':'] (a ++ ':' :: b) = some (a, b) := findOcc_single_append b ha
  have hgoal : (pySplit colonSep it1).get? 1 = some (b.takeWhile (· != ':')) := by
    rw [← hit1e]
    show (pySplit [':'] (a ++ ':' :: b)).get? 1 = _
    rw [pySplit_cons (by simp) hfo, List.get?_cons_succ]
    exact pySplit_single_get0 ':' b
  rw [hgoal] at hseg
  injection hseg with hsege
  injection hp with hcl hst
  subst hr
  show cl = some (pyStrip (b.takeWhile (· != ':')))
  rw [hcl, hsege]

theorem C1_amended_location_witness :
    recTwoColons.class_location
      = some (pyStrip (((" A:12").data).takeWhile (· != ':'))) :=
  C1_amended_location fragTwoColons recTwoColons (("Room").data) ((" A:12").data)
    (by decide) rfl (by decide) rfl

/-! ### Claims about the calendar builder, link extractor and publisher -/

/-- C6 (evaluation at the failing input): built from a record whose
location is absent, the event still carries a `LOCATION` property — with
the literal text `None`, because `e.add('location', None)` is encoded by
icalendar as `vText(None)`, i.e. `str(None)` — rather than having no
location property; summary, description, start and end are set as usual. -/
theorem C6_location_none_coerced :
    (create_calendar_event envZero lessonNoLoc).location = some (("None").data)
    ∧ (create_calendar_event envZero lessonNoLoc).location ≠ none
    ∧ (create_calendar_event envZero lessonNoLoc).summary = ("Physics").data
    ∧ (create_calendar_event envZero lessonNoLoc).description = ("P. Jones").data
    ∧ (create_calendar_event envZero lessonNoLoc).dtstart = 1064352060
    ∧ (create_calendar_event envZero lessonNoLoc).dtend = 1064352120 := by
  refine ⟨rfl, ?_, rfl, rfl, by decide, by decide⟩
  decide

/-- C2 (counterexample): for the one-record list whose record has no
location, the first event's `location` is the text `None`, not the
record's absent `class_location`; so the claimed field equality fails. -/
theorem C2_counterexample :
    ((create_calendar envZero [lessonNoLoc]).events.get? 0).map VEvent.location
      = some (some (("None").data))
    ∧ ([lessonNoLoc].get? 0).map LessonRecord.class_location = some none
    ∧ (some (some (("None").data)) : Option (Option Str)) ≠ some none := by
  refine ⟨rfl, rfl, ?_⟩
  decide

/-- C2 (amended): `create_calendar` yields a calendar with the fixed
`prodid` and version `2.0` and exactly one event per lesson record, in
input order, where the i-th event's summary, description, start and end
are the i-th record's subject, staff and timezone-converted `from_date`
and `to_date`, and its location is the record's `class_location` when
present and the literal text `None` when absent. -/
theorem C2_events_match (localOff : PyDateTime → Int) (lessons : List LessonRecord) :
    (create_calendar localOff lessons).prodid = CALENDAR_PROD_ID
    ∧ (create_calendar localOff lessons).version = ("2.0").data
    ∧ (create_calendar localOff lessons).events.length = lessons.length
    ∧ ∀ i : Nat, i < lessons.length →
        ((create_calendar localOff lessons).events.get? i).map VEvent.summary
          = (lessons.get? i).map LessonRecord.subject
        ∧ ((create_calendar localOff lessons).events.get? i).map VEvent.location
          = (lessons.get? i).map (fun l =>
              some (match l.class_location with
                    | some t => t
                    | none => ("None").data))
        ∧ ((create_calendar localOff lessons).events.get? i).map VEvent.description
          = (lessons.get? i).map LessonRecord.staff
        ∧ ((create_calendar localOff lessons).events.get? i).map VEvent.dtstart
          = (lessons.get? i).map (fun l => astimezoneFixed localOff l.from_date)
        ∧ ((create_calendar localOff lessons).events.get? i).map VEvent.dtend
          = (lessons.get? i).map (fun l => astimezoneFixed localOff l.to_date) := by
  refine ⟨rfl, rfl, by simp [create_calendar], ?_⟩
  intro i hi
  cases hgi : lessons.get? i with
  | none =>
    rw [List.get?_eq_none] at hgi
    omega
  | some l =>
    have hev : (create_calendar localOff lessons).events.get? i
        = some (create_calendar_event localOff l) := by
      show (lessons.map (create_calendar_event localOff)).get? i = _
      rw [List.get?_map, hgi]
      rfl
    rw [hev]
    refine ⟨rfl, ?_, rfl, rfl, rfl⟩
    cases l.class_location with
    | none => rfl
    | some t => rfl

theorem C2_events_match_witness :
    ((create_calendar envZero [lessonNoLoc]).events.get? 0).map VEvent.summary
      = ([lessonNoLoc].get? 0).map LessonRecord.subject :=
  ((C2_events_match envZero [lessonNoLoc]).2.2.2 0 (by decide)).1

/-- C8: `create_calendar` is deterministic — in a fixed environment, two
input lists that agree field-by-field produce equal calendar documents. -/
theorem C8_deterministic (localOff : PyDateTime → Int) (l1 l2 : List LessonRecord)
    (h : l1.map recFields = l2.map recFields) :
    create_calendar localOff l1 = create_calendar localOff l2 := by
  have hinj : Function.Injective recFields := by
    intro x y hxy
    cases x
    cases y
    simp only [recFields, Prod.mk.injEq] at hxy
    obtain ⟨h1, h2, h3, h4, h5⟩ := hxy
    simp_all
  have h12 : l1 = l2 := List.map_injective_iff.mpr hinj h
  rw [h12]

theorem C8_deterministic_witness :
    create_calendar envZero [lessonNoLoc] = create_calendar envZero [lessonNoLoc] :=
  C8_deterministic envZero [lessonNoLoc] [lessonNoLoc] rfl

/-- C5: link extraction from a window-fetch response.  Scenario 4's page
yields `/a` then `/b` in encounter order; extraction distributes over
concatenation of page lists (links of all fragments are concatenated in
encounter order); an `html` field with no marker occurrence yields no
links; and a repeated link is not deduplicated. -/
theorem C5_link_extraction :
    get_calendar_html respScenario4 = [("/a").data, ("/b").data]
    ∧ (∀ ps qs : List (Option Str),
        get_calendar_html ⟨ps ++ qs⟩ = get_calendar_html ⟨ps⟩ ++ get_calendar_html ⟨qs⟩)
    ∧ (∀ h : Str, ¬ ajaxMarker <:+: h → linksInHtml h = [])
    ∧ get_calendar_html respDupLink = [("/a").data, ("/a").data] := by
  refine ⟨rfl, ?_, ?_, rfl⟩
  · intro ps qs
    show ((ps ++ qs).map _).flatten = _
    rw [List.map_append, List.flatten_append]
    rfl
  · intro h hm
    unfold linksInHtml
    rw [pySplit_of_not_infixOcc hm]
    rfl

theorem C5_link_extraction_witness :
    linksInHtml (("<div>plain</div>").data) = [] :=
  C5_link_extraction.2.2.1 (("<div>plain</div>").data) (by decide)

/-- C7: a failure while serialising to the temporary file (the `to_ical`
plus `write` step, or the `seek`) or while uploading to S3 is caught by
the `except` handler, reported via the printed message, and the call
returns normally to its caller. -/
theorem C7_upload_soft_fail (cal : VCalendar) (st : S3Step)
    (h : st = S3Step.writeCal ∨ st = S3Step.seekFile ∨ st = S3Step.uploadObj) :
    (upload_ical_to_s3 cal (some st)).1 = Except.ok ()
    ∧ (upload_ical_to_s3 cal (some st)).2 = [uploadFailureMsg] := by
  rcases h with h | h | h <;> subst h <;> exact ⟨rfl, rfl⟩

theorem C7_upload_soft_fail_witness :
    (upload_ical_to_s3 (create_calendar envZero []) (some S3Step.uploadObj)).1 = Except.ok ()
    ∧ (upload_ical_to_s3 (create_calendar envZero []) (some S3Step.uploadObj)).2
        = [uploadFailureMsg] :=
  C7_upload_soft_fail (create_calendar envZero []) S3Step.uploadObj (Or.inr (Or.inr rfl))
